import Mathlib

/-!
# build-stream8-kernel (`task2/main.go`)

A shallow embedding of the kernel build driver.  The program is sequential
glue around the filesystem, an HTTP client and the docker command line, so
the embedding is a pure function from an environment `Env` (the answers of
the operating system, the network and docker) to the value the Go function
returns together with the trace of externally visible actions it performs,
in program order.

Conventions.
* A Go `string` is a list of characters (the text is taken to be valid
  UTF-8; every separator and suffix the program looks for is ASCII); a Go
  `error` is carried by its message, `Option GoError` being `nil` or an
  error.
* The closure returned by `downloadSRPM` is defunctionalised as `Cleanup`
  (the captured `tmpDir`); running it is the `os.RemoveAll` it wraps.
* `os.Exit` ends the run at once: deferred calls registered in `main` are
  run only when `main` returns normally.
* The filesystem is followed through the trace (`fsAfter`): directories and
  files made by the process are added, `os.RemoveAll` deletes a path with
  everything below it.
* `path/filepath` is the Unix flavour (separator `/`, no volume names).
-/

set_option autoImplicit false

namespace Task2

/-! ## Strings -/

/-- A Go string. -/
abbrev GoString := List Char

/-- A Go error, represented by its message. -/
abbrev GoError := GoString

/-- Constant `dockerImage` of the source. -/
def dockerImage : GoString := "stream8-kernel-builder".toList

/-- Constant `dockerCmd` of the source. -/
def dockerCmd : GoString := "docker".toList

/-- Go `strings.HasPrefix`: `len(s) >= len(prefix) && s[:len(prefix)] == prefix`. -/
def HasPrefix (s pre : GoString) : Bool :=
  decide (pre.length ≤ s.length) && (s.take pre.length == pre)

/-- Go `strings.HasSuffix`: `len(s) >= len(suffix) && s[len(s)-len(suffix):] == suffix`. -/
def HasSuffix (s suffix : GoString) : Bool :=
  decide (suffix.length ≤ s.length) && (s.drop (s.length - suffix.length) == suffix)

/-- Go `strings.Split(s, sep)` for a one-character separator: the pieces of
`s` between the occurrences of `sep`, one more piece than occurrences. -/
def Split (s : GoString) (sep : Char) : List GoString :=
  match s with
  | [] => [[]]
  | c :: cs =>
    if c = sep then [] :: Split cs sep
    else
      match Split cs sep with
      | [] => [[c]]
      | p :: ps => (c :: p) :: ps

/-- Go `strings.Join(elems, sep)`. -/
def Join (elems : List GoString) (sep : GoString) : GoString :=
  match elems with
  | [] => []
  | [e] => e
  | e :: es => e ++ sep ++ Join es sep

/-- Go `unicode.IsSpace`. -/
def isSpace (c : Char) : Bool :=
  let n := c.toNat
  (9 ≤ n && n ≤ 13) || n == 32 || n == 0x85 || n == 0xA0 || n == 0x1680 ||
  (0x2000 ≤ n && n ≤ 0x200A) || n == 0x2028 || n == 0x2029 || n == 0x202F ||
  n == 0x205F || n == 0x3000

/-- Go `strings.TrimSpace`. -/
def TrimSpace (s : GoString) : GoString :=
  ((s.dropWhile isSpace).reverse.dropWhile isSpace).reverse

/-- The verb `%d` of `fmt` on a non-negative integer. -/
def itoa (n : Nat) : GoString := (Nat.repr n).toList

/-! ## `path/filepath` -/

/-- One round of the loop of `filepath.Clean`, on the path element that
stands between two separators: empty elements and `.` are dropped, `..`
removes the element before it (or is kept at the head of a relative path),
anything else is appended. -/
def cleanStep (rooted : Bool) (out : List GoString) (elem : GoString) : List GoString :=
  if elem = [] ∨ elem = ['.'] then out
  else if elem = ['.', '.'] then
    match out.getLast? with
    | some l => if l = ['.', '.'] then out ++ [elem] else out.dropLast
    | none => if rooted then out else out ++ [elem]
  else out ++ [elem]

/-- The elements `filepath.Clean` keeps of a path, in order. -/
def cleanElems (path : GoString) : List GoString :=
  (Split path '/').foldl (cleanStep (HasPrefix path ['/'])) []

/-- Go `filepath.Clean`. -/
def Clean (path : GoString) : GoString :=
  if path = [] then ['.']
  else
    let out := cleanElems path
    if HasPrefix path ['/'] then '/' :: Join out ['/']
    else if out = [] then ['.'] else Join out ['/']

/-- Go `filepath.Join(a, b)`: empty leading elements are ignored, the rest
is joined with the separator and cleaned. -/
def filepathJoin (a b : GoString) : GoString :=
  if a ≠ [] then Clean (a ++ ['/'] ++ b)
  else if b ≠ [] then Clean b
  else []

/-! ## Numbers -/

/-- The value of the conversion `float64(n)` of a non-negative integer:
`n` itself when it fits the 53-bit significand, otherwise `n` rounded to
53 significant bits, to nearest, ties to even. -/
def float64OfNat (n : Nat) : Nat :=
  if n < 2 ^ 53 then n
  else
    let e := Nat.log2 n - 52
    let q := n / 2 ^ e
    let r := n % 2 ^ e
    let half := 2 ^ (e - 1)
    if half < r ∨ (r = half ∧ q % 2 = 1) then (q + 1) * 2 ^ e else q * 2 ^ e

/-- The expression `float64(size) / (1024 * 1024)` of the source.  Dividing
a float64 by a power of two is exact, so the value is this rational. -/
def mebibytes (size : Nat) : ℚ := (float64OfNat size : ℚ) / (1024 * 1024)

/-! ## Environment and trace -/

/-- Go `fs.FileInfo`, as far as the program reads it: `IsDir()` and
`Size()`, the length in bytes (an `int64` that is not negative). -/
structure FileInfo where
  isDir : Bool
  size : Nat
  deriving DecidableEq, Repr

/-- Go `fs.DirEntry`: `Name()` and the result of `Info()` (`none`: error). -/
structure DirEntry where
  name : GoString
  info : Option FileInfo
  deriving DecidableEq, Repr

/-- What becomes of a command handed to `os/exec`. -/
inductive ProcResult where
  /-- No process was started: the executable was not found, or the launch
  itself failed. -/
  | notStarted (err : GoError)
  /-- The process was started and did not exit by itself. -/
  | failed (err : GoError)
  /-- The process ran and exited with this status, having written `stdout`. -/
  | exited (code : Nat) (stdout : GoString)
  deriving DecidableEq, Repr

/-- Go `*http.Response`, as far as the program reads it. -/
structure Response where
  statusCode : Nat
  /-- Result of `io.Copy(file, resp.Body)`: bytes written, or an error. -/
  copy : Except GoError Nat

/-- Answers of the world outside the program. -/
structure Env where
  /-- What becomes of the command `name args...` when it is run. -/
  proc : GoString → List GoString → ProcResult
  /-- Go `filepath.Abs`. -/
  abs : GoString → Except GoError GoString
  /-- Go `os.MkdirAll(path, 0755)`. -/
  mkdirAll : GoString → Option GoError
  /-- Go `os.Stat`; `none` is an error. -/
  stat : GoString → Option FileInfo
  /-- Go `os.MkdirTemp("", "kernel-build-*")`. -/
  mkdirTemp : Except GoError GoString
  /-- Go `http.Get`. -/
  httpGet : GoString → Except GoError Response
  /-- Go `os.Create`. -/
  create : GoString → Option GoError
  /-- Go `os.ReadDir`. -/
  readDir : GoString → Except GoError (List DirEntry)

/-- Functions of the program whose calls are recorded in the trace. -/
inductive Fn where
  | printUsage
  | checkDocker
  | checkDockerImage
  | resolveSRPM
  | downloadSRPM
  | runBuild
  | listOutputFiles
  deriving DecidableEq, Repr

/-- Externally visible actions. -/
inductive Event where
  /-- Entry into a function of the program. -/
  | call (f : Fn)
  /-- Text written to standard output. -/
  | stdout (text : GoString)
  /-- A line written to standard output whose text holds a clock reading
  (`0`: build start, `1`: build completion). -/
  | stdoutTimed (which : Nat)
  /-- The call `fmt.Printf(format, s, f)` with one `%s` and one `%.2f`
  argument; the event holds the arguments, not the rendered text. -/
  | printf (format : GoString) (s : GoString) (f : ℚ)
  /-- Text written to standard error. -/
  | stderr (text : GoString)
  /-- Call of `Run` or `Output` on `exec.Command(name, args...)`. -/
  | command (name : GoString) (args : List GoString)
  /-- A child process `name args...` is started and executed. -/
  | exec (name : GoString) (args : List GoString)
  /-- Call of `os.MkdirAll`, with whether it succeeded. -/
  | mkdirAll (path : GoString) (ok : Bool)
  /-- The directory made by a successful `os.MkdirTemp`. -/
  | mkdirTemp (dir : GoString)
  /-- Call of `http.Get`. -/
  | httpGet (url : GoString)
  /-- Call of `os.Create`, with whether it succeeded. -/
  | create (path : GoString) (ok : Bool)
  /-- Call of `os.RemoveAll`. -/
  | removeAll (path : GoString)
  deriving DecidableEq

/-- Actions in program order. -/
abbrev Trace := List Event

/-- Go `cmd.Run()`: `nil` exactly when the process ran and exited with status zero. -/
def cmdRun (env : Env) (name : GoString) (args : List GoString) : Option GoError :=
  match env.proc name args with
  | .notStarted err => some err
  | .failed err => some err
  | .exited 0 _ => none
  | .exited code _ => some ("exit status ".toList ++ itoa code)

/-- Go `cmd.Output()`: standard output and the error of `Run`. -/
def cmdOutput (env : Env) (name : GoString) (args : List GoString) : Except GoError GoString :=
  match env.proc name args with
  | .notStarted err => .error err
  | .failed err => .error err
  | .exited 0 out => .ok out
  | .exited code _ => .error ("exit status ".toList ++ itoa code)

/-- The actions of `Run` or `Output` on `exec.Command(name, args...)`: the
call, and the child process when one is started. -/
def procEvents (env : Env) (name : GoString) (args : List GoString) : Trace :=
  match env.proc name args with
  | .notStarted _ => [.command name args]
  | _ => [.command name args, .exec name args]

/-! ## Filesystem read off the trace -/

/-- Effect of `os.RemoveAll(p)` on the set of existing paths. -/
def removeAll (fs : List GoString) (p : GoString) : List GoString :=
  fs.filter (fun q => !(q == p || HasPrefix q (p ++ ['/'])))

/-- Effect of one action on the set of existing paths. -/
def fsStep (fs : List GoString) : Event → List GoString
  | .mkdirTemp d => d :: fs
  | .mkdirAll p true => p :: fs
  | .create p true => p :: fs
  | .removeAll p => removeAll fs p
  | _ => fs

/-- The paths existing after the actions of `tr`, starting from `fs`. -/
def fsAfter (fs : List GoString) (tr : Trace) : List GoString :=
  tr.foldl fsStep fs

/-! ## The program -/

/-- The closure `cleanup` built by `downloadSRPM`, holding the captured `tmpDir`. -/
structure Cleanup where
  tmpDir : GoString
  deriving DecidableEq, Repr

/-- Calling the closure: `os.RemoveAll(tmpDir)`. -/
def Cleanup.run (c : Cleanup) : Trace := [.removeAll c.tmpDir]

/-- The triple `(string, func(), error)` returned by the source resolver. -/
structure Resolved where
  path : GoString
  cleanup : Option Cleanup
  err : Option GoError
  deriving DecidableEq

/-- Function `printUsage` of the source. -/
def printUsage : Trace :=
  [ .call .printUsage,
    .stdout "CentOS Stream 8 Kernel Build Tool\n".toList,
    .stdout "\n".toList,
    .stdout "Usage:\n".toList,
    .stdout "  build-stream8-kernel <srpm_or_url> <output_directory>\n".toList,
    .stdout "\n".toList,
    .stdout "Examples:\n".toList,
    .stdout "  build-stream8-kernel kernel-4.18.0-448.el8.src.rpm ./output\n".toList,
    .stdout "  build-stream8-kernel https://vault.centos.org/.../kernel-4.18.0-448.el8.src.rpm ./output\n".toList,
    .stdout "\n".toList,
    .stdout "Requirements:\n".toList,
    .stdout "  - Docker must be installed and running\n".toList,
    .stdout ("  - Docker image \x27".toList ++ dockerImage ++ "\x27 must be built first\n".toList),
    .stdout "\n".toList,
    .stdout "Build the Docker image:\n".toList,
    .stdout "  cd docker && docker build -t stream8-kernel-builder .\n".toList ]

/-- Arguments of the docker version query in `checkDocker`. -/
def versionArgs : List GoString :=
  ["version".toList, "--format".toList, "\x7b\x7b.Server.Version\x7d\x7d".toList]

/-- Function `checkDocker` of the source. -/
def checkDocker (env : Env) : Option GoError × Trace :=
  let pre : Trace :=
    [.call .checkDocker, .stdout "[*] Checking Docker...\n".toList] ++
      procEvents env dockerCmd versionArgs
  match cmdOutput env dockerCmd versionArgs with
  | .error _ =>
    (some "Docker is not available or not running. Please install/start Docker".toList, pre)
  | .ok output =>
    (none, pre ++ [.stdout ("[+] Docker version: ".toList ++ TrimSpace output ++ "\n".toList)])

/-- Arguments of the image query in `checkDockerImage`. -/
def imagesArgs : List GoString := ["images".toList, "-q".toList, dockerImage]

/-- Function `checkDockerImage` of the source. -/
def checkDockerImage (env : Env) : Option GoError × Trace :=
  let pre : Trace :=
    [.call .checkDockerImage,
     .stdout ("[*] Checking for Docker image: ".toList ++ dockerImage ++ "\n".toList)] ++
      procEvents env dockerCmd imagesArgs
  match cmdOutput env dockerCmd imagesArgs with
  | .error err => (some ("failed to check Docker images: ".toList ++ err), pre)
  | .ok output =>
    if TrimSpace output = [] then
      (some ("Docker image \x27".toList ++ dockerImage ++
          "\x27 not found.\n\nBuild it first:\n  cd docker && docker build -t ".toList ++
          dockerImage ++ " .".toList), pre)
    else
      (none, pre ++ [.stdout ("[+] Docker image found: ".toList ++ dockerImage ++ "\n".toList)])

/-- Lines 161-165 of `downloadSRPM`: the destination filename derived from
the URL.  `none` is the run-time panic of an index out of range in
`parts[len(parts)-1]`. -/
def destFilename (url : GoString) : Option GoString :=
  let parts := Split url '/'
  match parts[parts.length - 1]? with
  | none => none
  | some filename =>
    if !HasSuffix filename ".src.rpm".toList then some "kernel.src.rpm".toList
    else some filename

/-- Function `downloadSRPM` of the source.  The returned value is `none`
when the function panics instead of returning. -/
def downloadSRPM (env : Env) (url : GoString) : Option Resolved × Trace :=
  let t0 : Trace :=
    [.call .downloadSRPM, .stdout ("[*] Downloading SRPM from: ".toList ++ url ++ "\n".toList)]
  match env.mkdirTemp with
  | .error err => (some ⟨[], none, some ("cannot create temp directory: ".toList ++ err)⟩, t0)
  | .ok tmpDir =>
    let cleanup : Cleanup := ⟨tmpDir⟩
    let t1 := t0 ++ [.mkdirTemp tmpDir]
    match destFilename url with
    | none => (none, t1)
    | some filename =>
      let destPath := filepathJoin tmpDir filename
      let t2 := t1 ++ [.httpGet url]
      match env.httpGet url with
      | .error err =>
        (some ⟨[], none, some ("download failed: ".toList ++ err)⟩, t2 ++ cleanup.run)
      | .ok resp =>
        if resp.statusCode ≠ 200 then
          (some ⟨[], none, some ("download failed: HTTP ".toList ++ itoa resp.statusCode)⟩,
            t2 ++ cleanup.run)
        else
          match env.create destPath with
          | some err =>
            (some ⟨[], none, some ("cannot create file: ".toList ++ err)⟩,
              t2 ++ [.create destPath false] ++ cleanup.run)
          | none =>
            let t3 := t2 ++ [.create destPath true]
            match resp.copy with
            | .error err =>
              (some ⟨[], none, some ("download error: ".toList ++ err)⟩, t3 ++ cleanup.run)
            | .ok size =>
              (some ⟨destPath, some cleanup, none⟩,
                t3 ++ [.printf "[+] Downloaded: %s (%.2f MB)\n".toList filename (mebibytes size)])

/-- Function `resolveSRPM` of the source.  The returned value is `none`
when the function panics instead of returning. -/
def resolveSRPM (env : Env) (source : GoString) : Option Resolved × Trace :=
  if HasPrefix source "http://".toList || HasPrefix source "https://".toList then
    let r := downloadSRPM env source
    (r.1, .call .resolveSRPM :: r.2)
  else
    match env.abs source with
    | .error err =>
      (some ⟨[], none, some ("invalid path: ".toList ++ err)⟩, [.call .resolveSRPM])
    | .ok absPath =>
      match env.stat absPath with
      | none =>
        (some ⟨[], none, some ("SRPM not found: ".toList ++ absPath)⟩, [.call .resolveSRPM])
      | some info =>
        if info.isDir then
          (some ⟨[], none, some ("path is a directory, not a file: ".toList ++ absPath)⟩,
            [.call .resolveSRPM])
        else
          (some ⟨absPath, none, none⟩,
            [.call .resolveSRPM, .stdout ("[*] Using local SRPM: ".toList ++ absPath ++ "\n".toList)])

/-- The slice `args` built in `runBuild`. -/
def buildArgs (srpmPath outputDir : GoString) : List GoString :=
  [ "run".toList,
    "--rm".toList,
    "--user".toList, "0".toList,
    "-v".toList, srpmPath ++ ":/input.src.rpm:ro".toList,
    "-v".toList, outputDir ++ ":/out".toList,
    dockerImage,
    "/input.src.rpm".toList,
    "/out".toList ]

/-- Function `runBuild` of the source. -/
def runBuild (env : Env) (srpmPath outputDir : GoString) : Option GoError × Trace :=
  let args := buildArgs srpmPath outputDir
  (cmdRun env dockerCmd args,
    [ .call .runBuild,
      .stdout "[*] Starting Docker container for build...\n".toList,
      .stdout ("[*] Running: docker ".toList ++ (Join (args.take 5) " ".toList ++ "...".toList) ++
        "\n".toList) ] ++ procEvents env dockerCmd args)

/-- The format of a package line in `listOutputFiles`. -/
def packageFormat : GoString := "  %s (%.2f MB)\n".toList

/-- The loop of `listOutputFiles` over the directory listing. -/
def listLoop : List DirEntry → Trace
  | [] => []
  | f :: files =>
    if HasSuffix f.name ".rpm".toList then
      match f.info with
      | none => listLoop files
      | some info => .printf packageFormat f.name (mebibytes info.size) :: listLoop files
    else listLoop files

/-- Function `listOutputFiles` of the source. -/
def listOutputFiles (env : Env) (dir : GoString) : Trace :=
  let pre : Trace := [.call .listOutputFiles, .stdout "\n[*] Built packages:\n".toList]
  match env.readDir dir with
  | .error _ => pre
  | .ok files => pre ++ listLoop files

/-- Function `main` of the source on `os.Args = args`: the exit code of the
process and its trace.  Every `os.Exit(1)` ends the run there; the deferred
`cleanup()` runs only on the normal return at the end, after which the
process exits with code 0.  A panic ends the process with code 2. -/
def main (env : Env) (args : List GoString) : Nat × Trace :=
  match args with
  | [_, source, outputDir] =>
    let r1 := checkDocker env
    match r1.1 with
    | some err => (1, r1.2 ++ [.stderr ("[ERROR] ".toList ++ err ++ "\n".toList)])
    | none =>
      let r2 := checkDockerImage env
      let t2 := r1.2 ++ r2.2
      match r2.1 with
      | some err => (1, t2 ++ [.stderr ("[ERROR] ".toList ++ err ++ "\n".toList)])
      | none =>
        match env.abs outputDir with
        | .error err =>
          (1, t2 ++ [.stderr ("[ERROR] Invalid output path: ".toList ++ err ++ "\n".toList)])
        | .ok absOutput =>
          match env.mkdirAll absOutput with
          | some err =>
            (1, t2 ++ [.mkdirAll absOutput false,
              .stderr ("[ERROR] Cannot create output directory: ".toList ++ err ++ "\n".toList)])
          | none =>
            let r3 := resolveSRPM env source
            let t3 := t2 ++ [.mkdirAll absOutput true] ++ r3.2
            match r3.1 with
            | none => (2, t3)
            | some ⟨_, _, some err⟩ =>
              (1, t3 ++ [.stderr ("[ERROR] ".toList ++ err ++ "\n".toList)])
            | some ⟨srpmPath, cleanup, none⟩ =>
              let deferred : Trace :=
                match cleanup with
                | some cleanup => cleanup.run
                | none => []
              let r4 := runBuild env srpmPath absOutput
              let t4 := t3 ++ [.stdoutTimed 0] ++ r4.2
              match r4.1 with
              | some err =>
                (1, t4 ++ [.stderr ("[ERROR] Build failed: ".toList ++ err ++ "\n".toList)])
              | none =>
                (0, t4 ++ [.stdoutTimed 1,
                    .stdout ("[*] Output directory: ".toList ++ absOutput ++ "\n".toList)] ++
                  listOutputFiles env absOutput ++ deferred)
  | _ => (1, printUsage)

/-! ## Notions of the specification -/

/-- The final path segment of a URL: the substring after the last `/`, the
whole string when it holds none. -/
def finalSegment (url : GoString) : GoString :=
  (url.reverse.takeWhile (fun c => c != '/')).reverse

/-- The path made of the elements `elems`, below the root when `rooted`. -/
def pathOf (rooted : Bool) (elems : List GoString) : GoString :=
  (if rooted then ['/'] else []) ++ Join elems ['/']

/-- The HTTP status codes of the success class, 200 to 299. -/
def isSuccessStatus (code : Nat) : Bool := decide (200 ≤ code) && decide (code ≤ 299)

/-- The five stages of a run, in the order `main` goes through them. -/
def stageOrder : List Fn :=
  [.checkDocker, .checkDockerImage, .resolveSRPM, .runBuild, .listOutputFiles]

/-- The stage an action starts, if it starts one. -/
def stageOf : Event → Option Fn
  | .call f => if f ∈ stageOrder then some f else none
  | _ => none

/-- The stages started in a trace, in order. -/
def stages (tr : Trace) : List Fn := tr.filterMap stageOf

/-- The commands handed to `os/exec` in a trace, in order. -/
def commands (tr : Trace) : List (GoString × List GoString) :=
  tr.filterMap (fun e => match e with
    | .command name args => some (name, args)
    | _ => none)

/-- The child processes executed in a trace, in order. -/
def execs (tr : Trace) : List (GoString × List GoString) :=
  tr.filterMap (fun e => match e with
    | .exec name args => some (name, args)
    | _ => none)

/-- The package lines printed in a trace, in order: name and size. -/
def packageLines (tr : Trace) : List (GoString × ℚ) :=
  tr.filterMap (fun e => match e with
    | .printf format name size => if format = packageFormat then some (name, size) else none
    | _ => none)

/-- An action of the download path: entering `downloadSRPM`, making the
temporary directory, the HTTP request, creating a file. -/
def isDownloadEvent : Event → Bool
  | .call .downloadSRPM => true
  | .mkdirTemp _ => true
  | .httpGet _ => true
  | .create _ _ => true
  | _ => false

/-- An action that removes nothing. -/
def keepsFiles : Event → Bool
  | .removeAll _ => false
  | _ => true

/-- An action that calls `os.Create`. -/
def isCreateEvent : Event → Bool
  | .create _ _ => true
  | _ => false

/-- After the temporary directory `tmpDir` was made, a later step of the
download fails: the request errors, the status is not 200 (as is every
status outside the success class), the destination file cannot be created,
or copying the body errors. -/
def laterStepFails (env : Env) (url tmpDir : GoString) : Bool :=
  match env.httpGet url with
  | .error _ => true
  | .ok resp =>
    resp.statusCode != 200 ||
    (match destFilename url with
      | some filename => (env.create (filepathJoin tmpDir filename)).isSome
      | none => false) ||
    (match resp.copy with
      | .error _ => true
      | .ok _ => false)

/-! ## Sample environments -/

/-- An environment in which docker, the filesystem and the network all
answer with success. -/
def okEnv : Env where
  proc := fun _ args =>
    if args = versionArgs then .exited 0 "24.0.7\n".toList
    else if args = imagesArgs then .exited 0 "0123456789ab\n".toList
    else .exited 0 []
  abs := fun p => .ok (if HasPrefix p ['/'] then p else "/work/".toList ++ p)
  mkdirAll := fun _ => none
  stat := fun p =>
    if p = "/work/kernel.src.rpm".toList then some ⟨false, 4096⟩
    else if p = "/work".toList then some ⟨true, 4096⟩
    else none
  mkdirTemp := .ok "/tmp/kernel-build-1".toList
  httpGet := fun _ => .ok ⟨200, .ok 2097152⟩
  create := fun _ => none
  readDir := fun _ => .ok
    [ ⟨"kernel-4.18.0.x86_64.rpm".toList, some ⟨false, 3145728⟩⟩,
      ⟨"build.log".toList, some ⟨false, 10⟩⟩,
      ⟨"kernel-devel.rpm".toList, none⟩,
      ⟨"kernel-core.rpm".toList, some ⟨false, 524288⟩⟩ ]

/-- As `okEnv`, but the build container exits with status 1. -/
def buildFailsEnv : Env :=
  { okEnv with
    proc := fun name args =>
      if args = versionArgs ∨ args = imagesArgs then okEnv.proc name args
      else .exited 1 [] }

/-- As `okEnv`, but the build container cannot be launched. -/
def launchFailsEnv : Env :=
  { okEnv with
    proc := fun name args =>
      if args = versionArgs ∨ args = imagesArgs then okEnv.proc name args
      else .notStarted "fork/exec /usr/bin/docker: resource temporarily unavailable".toList }

/-- As `okEnv`, but the server answers with the given status. -/
def statusEnv (code : Nat) : Env :=
  { okEnv with httpGet := fun _ => .ok ⟨code, .ok 0⟩ }

/-- A listing with one package of 2^53 + 15729 bytes. -/
def hugeListing : List DirEntry :=
  [⟨"huge.rpm".toList, some ⟨false, 9007199254756721⟩⟩]

/-- As `okEnv`, with `hugeListing` in the output directory. -/
def hugeEnv : Env :=
  { okEnv with readDir := fun _ => .ok hugeListing }

/-- A remote source. -/
def sampleUrl : GoString := "https://example.test/kernel-4.18.0.src.rpm".toList

/-- Arguments naming a remote source. -/
def urlArgs : List GoString := ["build-stream8-kernel".toList, sampleUrl, "out".toList]

/-! ## Strings: lemmas -/

theorem hasSuffix_iff (s suffix : GoString) : HasSuffix s suffix = true ↔ suffix <:+ s := by
  unfold HasSuffix
  rw [List.suffix_iff_eq_drop]
  constructor
  · intro h
    simp only [Bool.and_eq_true, decide_eq_true_eq, beq_iff_eq] at h
    exact h.2.symm
  · intro h
    have hl : suffix.length ≤ s.length := by
      have := congrArg List.length h
      simp only [List.length_drop] at this
      omega
    simp only [Bool.and_eq_true, decide_eq_true_eq, beq_iff_eq]
    exact ⟨hl, h.symm⟩

theorem split_ne_nil (s : GoString) (sep : Char) : Split s sep ≠ [] := by
  induction s with
  | nil => simp [Split]
  | cons c cs ih =>
    unfold Split
    split
    · simp
    · split <;> simp

theorem split_cons (c : Char) (cs : GoString) (sep : Char) :
    Split (c :: cs) sep =
      if c = sep then [] :: Split cs sep
      else
        match Split cs sep with
        | [] => [[c]]
        | p :: ps => (c :: p) :: ps := by
  rw [Split]

theorem split_of_not_mem (s : GoString) (sep : Char) (h : sep ∉ s) : Split s sep = [s] := by
  induction s with
  | nil => simp [Split]
  | cons c cs ih =>
    have hc : ¬ c = sep := fun e => h (by simp [e])
    have hcs : sep ∉ cs := fun m => h (List.mem_cons_of_mem _ m)
    rw [split_cons, if_neg hc, ih hcs]

theorem split_append_sep (a b : GoString) (sep : Char) :
    Split (a ++ sep :: b) sep = Split a sep ++ Split b sep := by
  induction a with
  | nil => simp [Split]
  | cons c cs ih =>
    rw [List.cons_append, split_cons, split_cons]
    by_cases hc : c = sep
    · rw [if_pos hc, if_pos hc, ih]; rfl
    · rw [if_neg hc, if_neg hc, ih]
      cases h : Split cs sep with
      | nil => exact absurd h (split_ne_nil cs sep)
      | cons p ps => rfl

theorem finalSegment_not_mem (url : GoString) : '/' ∉ finalSegment url := by
  unfold finalSegment
  intro h
  rw [List.mem_reverse] at h
  have := List.mem_takeWhile_imp h
  simp at this

theorem finalSegment_decomp (url : GoString) :
    url = finalSegment url ∨ ∃ pre, url = pre ++ '/' :: finalSegment url := by
  unfold finalSegment
  have h := List.takeWhile_append_dropWhile (fun c => c != '/') url.reverse
  cases hd : List.dropWhile (fun c => c != '/') url.reverse with
  | nil =>
    left
    rw [hd, List.append_nil] at h
    rw [h, List.reverse_reverse]
  | cons x rest =>
    right
    have hx : x = '/' := by
      have := List.head_dropWhile_not (fun c => c != '/') url.reverse (by rw [hd]; simp)
      simp only [hd, List.head_cons] at this
      simpa using this
    refine ⟨rest.reverse, ?_⟩
    rw [hd] at h
    have h2 := congrArg List.reverse h
    rw [List.reverse_reverse, List.reverse_append, List.reverse_cons, hx] at h2
    exact h2.symm.trans (by simp)

theorem split_getLast (url : GoString) :
    (Split url '/')[(Split url '/').length - 1]? = some (finalSegment url) := by
  rw [← List.getLast?_eq_getElem?]
  rcases finalSegment_decomp url with h | ⟨pre, h⟩
  · have : Split url '/' = [finalSegment url] := by
      conv_lhs => rw [h]
      exact split_of_not_mem _ _ (finalSegment_not_mem url)
    rw [this]; rfl
  · have : Split url '/' = Split pre '/' ++ [finalSegment url] := by
      conv_lhs => rw [h]
      rw [split_append_sep, split_of_not_mem _ _ (finalSegment_not_mem url)]
    rw [this]; simp

theorem finalSegment_suffix (url : GoString) : finalSegment url <:+ url := by
  rcases finalSegment_decomp url with h | ⟨pre, h⟩
  · exact ⟨[], by simpa using h.symm⟩
  · exact ⟨pre ++ ['/'], by simpa using h.symm⟩

theorem suffix_finalSegment_iff (url suffix : GoString) (hs : '/' ∉ suffix) :
    suffix <:+ url ↔ suffix <:+ finalSegment url := by
  constructor
  · intro h
    rcases finalSegment_decomp url with e | ⟨pre, e⟩
    · rw [← e]; exact h
    · have h2 : ('/' :: finalSegment url) <:+ url := ⟨pre, e.symm⟩
      rcases List.suffix_or_suffix_of_suffix h h2 with h3 | h3
      · rcases List.suffix_cons_iff.mp h3 with h4 | h4
        · exact absurd (by rw [h4]; simp) hs
        · exact h4
      · exact absurd (h3.mem (List.mem_cons_self _ _)) hs
  · intro h
    exact h.trans (finalSegment_suffix url)

theorem hasSuffix_finalSegment (url suffix : GoString) (hs : '/' ∉ suffix) :
    HasSuffix (finalSegment url) suffix = HasSuffix url suffix := by
  rw [Bool.eq_iff_iff, hasSuffix_iff, hasSuffix_iff]
  exact (suffix_finalSegment_iff url suffix hs).symm

theorem destFilename_eq (url : GoString) :
    destFilename url =
      some (if HasSuffix url ".src.rpm".toList then finalSegment url
        else "kernel.src.rpm".toList) := by
  unfold destFilename
  simp only [split_getLast]
  rw [hasSuffix_finalSegment url _ (by decide)]
  cases HasSuffix url ".src.rpm".toList <;> simp

theorem hasSuffix_ne_nil_of (f suffix : GoString) (h : HasSuffix f suffix = true)
    (hs : suffix ≠ []) : f ≠ [] := by
  rw [hasSuffix_iff] at h
  intro e
  rw [e] at h
  exact hs (List.suffix_nil.mp h)

/-! ## Paths: lemmas -/

theorem cleanStep_plain (rooted : Bool) (out : List GoString) (f : GoString)
    (h : 2 < f.length) : cleanStep rooted out f = out ++ [f] := by
  have h1 : f ≠ [] := by intro e; rw [e] at h; simp at h
  have h2 : f ≠ ['.'] := by intro e; rw [e] at h; simp at h
  have h3 : f ≠ ['.', '.'] := by intro e; rw [e] at h; simp at h
  simp [cleanStep, h1, h2, h3]

theorem hasPrefix_append_of_ne_nil (a b pre : GoString) (ha : a ≠ []) :
    HasPrefix (a ++ b) [pre.headD '/'] = HasPrefix a [pre.headD '/'] := by
  cases a with
  | nil => exact absurd rfl ha
  | cons c cs => simp [HasPrefix]

theorem cleanElems_child (dir f : GoString) (hd : dir ≠ []) (hf : '/' ∉ f)
    (hlen : 2 < f.length) : cleanElems (dir ++ '/' :: f) = cleanElems dir ++ [f] := by
  have hp : HasPrefix (dir ++ '/' :: f) ['/'] = HasPrefix dir ['/'] :=
    hasPrefix_append_of_ne_nil dir ('/' :: f) [] hd
  unfold cleanElems
  rw [hp, split_append_sep, split_of_not_mem f '/' hf, List.foldl_append]
  simp [cleanStep_plain _ _ f hlen]

theorem join_append_singleton_ne_nil (l : List GoString) (f sep : GoString) (hf : f ≠ []) :
    Join (l ++ [f]) sep ≠ [] := by
  induction l with
  | nil => simpa [Join] using hf
  | cons e es ih =>
    cases hes : es ++ [f] with
    | nil => simp at hes
    | cons x xs =>
      rw [List.cons_append, hes, Join]
      · rw [← hes]
        intro h
        have := List.append_eq_nil.mp h
        exact ih this.2
      · intro h; simp at h

theorem filepathJoin_child (dir f : GoString) (hf : '/' ∉ f) (hlen : 2 < f.length) :
    filepathJoin dir f = pathOf (HasPrefix dir ['/']) (cleanElems dir ++ [f]) := by
  have hne : f ≠ [] := by intro e; rw [e] at hlen; simp at hlen
  unfold filepathJoin
  by_cases hd : dir = []
  · subst hd
    have hpf : HasPrefix f ['/'] = false := by
      cases f with
      | nil => exact absurd rfl hne
      | cons c cs =>
        have : ¬ c = '/' := fun e => hf (by simp [e])
        simp [HasPrefix, this]
    have hce : cleanElems f = [f] := by
      unfold cleanElems
      rw [split_of_not_mem f '/' hf]
      simp [cleanStep_plain _ _ f hlen]
    have h0 : cleanElems [] = [] := by decide
    have hp0 : HasPrefix [] ['/'] = false := by decide
    rw [if_neg (fun h => h rfl), if_pos hne]
    unfold Clean
    rw [if_neg hne]
    simp only [hpf, hce, h0, hp0]
    simp [pathOf, Join]
  · have hp : HasPrefix (dir ++ ['/'] ++ f) ['/'] = HasPrefix dir ['/'] := by
      rw [List.append_assoc]
      exact hasPrefix_append_of_ne_nil dir (['/'] ++ f) [] hd
    have hce : cleanElems (dir ++ ['/'] ++ f) = cleanElems dir ++ [f] := by
      rw [List.append_assoc]
      exact cleanElems_child dir f hd hf hlen
    have hnn : dir ++ ['/'] ++ f ≠ [] := by simp
    rw [if_pos hd]
    unfold Clean
    rw [if_neg hnn]
    simp only [hp, hce]
    cases hr : HasPrefix dir ['/']
    · have : cleanElems dir ++ [f] ≠ [] := by simp
      simp [this, pathOf]
    · simp [pathOf]

theorem hasSuffix_length_le (f suffix : GoString) (h : HasSuffix f suffix = true) :
    suffix.length ≤ f.length := by
  rw [hasSuffix_iff] at h
  exact h.length_le

/-! ## Filesystem: lemmas -/

theorem fsAfter_append (fs : List GoString) (a b : Trace) :
    fsAfter fs (a ++ b) = fsAfter (fsAfter fs a) b := by
  simp [fsAfter, List.foldl_append]

theorem not_mem_removeAll (fs : List GoString) (p : GoString) : p ∉ removeAll fs p := by
  simp [removeAll]

theorem not_mem_fsAfter_removeAll (fs : List GoString) (pre : Trace) (p : GoString) :
    p ∉ fsAfter fs (pre ++ [.removeAll p]) := by
  rw [fsAfter_append]
  exact not_mem_removeAll _ p

theorem mem_fsAfter_cons (fs : List GoString) (e : Event) (tr : Trace) :
    fsAfter fs (e :: tr) = fsAfter (fsStep fs e) tr := rfl

theorem mem_fsStep_of_keeps (fs : List GoString) (e : Event) (p : GoString)
    (hk : keepsFiles e = true) (hp : p ∈ fs) : p ∈ fsStep fs e := by
  cases e with
  | removeAll q => simp [keepsFiles] at hk
  | mkdirTemp d => simp [fsStep, hp]
  | mkdirAll q ok => cases ok <;> simp [fsStep, hp]
  | create q ok => cases ok <;> simp [fsStep, hp]
  | call f => simpa [fsStep] using hp
  | stdout t => simpa [fsStep] using hp
  | stdoutTimed w => simpa [fsStep] using hp
  | printf a b c => simpa [fsStep] using hp
  | stderr t => simpa [fsStep] using hp
  | command n a => simpa [fsStep] using hp
  | exec n a => simpa [fsStep] using hp
  | httpGet u => simpa [fsStep] using hp

theorem mem_fsAfter_of_keeps (tr : Trace) (fs : List GoString) (p : GoString)
    (hk : ∀ e ∈ tr, keepsFiles e = true) (hp : p ∈ fs) : p ∈ fsAfter fs tr := by
  induction tr generalizing fs with
  | nil => exact hp
  | cons e es ih =>
    rw [mem_fsAfter_cons]
    exact ih _ (fun x hx => hk x (List.mem_cons_of_mem _ hx))
      (mem_fsStep_of_keeps fs e p (hk e (List.mem_cons_self _ _)) hp)

/-! ## The download -/

theorem downloadSRPM_returns (env : Env) (url : GoString) : (downloadSRPM env url).1 ≠ none := by
  unfold downloadSRPM
  rw [destFilename_eq]
  dsimp only
  split
  · simp
  · split
    · simp
    · split
      · simp
      · split
        · simp
        · split <;> simp

/-- C2: when `os.MkdirTemp` has made `tmpDir` and a later step of
`downloadSRPM` fails (request error, status other than 200, `os.Create`
error, copy error), the function returns an error with the empty path and a
nil cleanup action, and `tmpDir`, which was made, exists no more. -/
theorem downloadSRPM_failure_removes_tmpDir (env : Env) (url tmpDir : GoString)
    (fs : List GoString) (hdir : env.mkdirTemp = .ok tmpDir)
    (hfail : laterStepFails env url tmpDir = true) :
    (∃ err, (downloadSRPM env url).1 = some ⟨[], none, some err⟩) ∧
      Event.mkdirTemp tmpDir ∈ (downloadSRPM env url).2 ∧
      tmpDir ∉ fsAfter fs (downloadSRPM env url).2 := by
  unfold laterStepFails at hfail
  unfold downloadSRPM
  rw [destFilename_eq] at hfail ⊢
  simp only [hdir]
  cases hget : env.httpGet url with
  | error e =>
    refine ⟨⟨_, rfl⟩, by simp, ?_⟩
    exact not_mem_fsAfter_removeAll _ _ _
  | ok resp =>
    simp only [hget] at hfail
    by_cases hs : resp.statusCode = 200
    · simp only [hs, ne_eq, not_true_eq_false, if_false]
      cases hc : env.create (filepathJoin tmpDir
          (if HasSuffix url ".src.rpm".toList then finalSegment url
            else "kernel.src.rpm".toList)) with
      | some e =>
        refine ⟨⟨_, rfl⟩, by simp, ?_⟩
        exact not_mem_fsAfter_removeAll _ _ _
      | none =>
        cases hcopy : resp.copy with
        | error e =>
          refine ⟨⟨_, rfl⟩, by simp, ?_⟩
          exact not_mem_fsAfter_removeAll _ _ _
        | ok n =>
          rw [hc, hcopy, hs] at hfail
          simp at hfail
    · simp only [ne_eq, hs, not_false_eq_true, if_true]
      refine ⟨⟨_, rfl⟩, by simp, ?_⟩
      exact not_mem_fsAfter_removeAll _ _ _

/-- C9, amended: a response whose status code is not 200 makes
`downloadSRPM` fail with the error `download failed: HTTP <code>`, without
any call of `os.Create` and with the temporary directory removed; a response
with status 200 is not turned down for its status: the destination file is
created next, and the download succeeds exactly when creating and copying
succeed. -/
theorem downloadSRPM_status_check (env : Env) (url tmpDir : GoString) (resp : Response)
    (fs : List GoString) (hdir : env.mkdirTemp = .ok tmpDir)
    (hget : env.httpGet url = .ok resp) :
    (resp.statusCode ≠ 200 →
      (downloadSRPM env url).1 =
          some ⟨[], none, some ("download failed: HTTP ".toList ++ itoa resp.statusCode)⟩ ∧
        (downloadSRPM env url).2.filter isCreateEvent = [] ∧
        tmpDir ∉ fsAfter fs (downloadSRPM env url).2) ∧
    (resp.statusCode = 200 →
      ∃ f, destFilename url = some f ∧
        (∃ ok, Event.create (filepathJoin tmpDir f) ok ∈ (downloadSRPM env url).2) ∧
        ((∃ p c, (downloadSRPM env url).1 = some ⟨p, c, none⟩) ↔
          env.create (filepathJoin tmpDir f) = none ∧ ∃ n, resp.copy = .ok n)) := by
  constructor
  · intro hs
    unfold downloadSRPM
    rw [destFilename_eq]
    simp only [hdir, hget, ne_eq, hs, not_false_eq_true, if_true]
    refine ⟨trivial, ?_, ?_⟩
    · simp [isCreateEvent, Cleanup.run]
    · exact not_mem_fsAfter_removeAll _ _ _
  · intro hs
    refine ⟨_, destFilename_eq url, ?_⟩
    unfold downloadSRPM
    rw [destFilename_eq]
    simp only [hdir, hget, ne_eq, hs, not_true_eq_false, if_false]
    cases hc : env.create (filepathJoin tmpDir
        (if HasSuffix url ".src.rpm".toList then finalSegment url
          else "kernel.src.rpm".toList)) with
    | some e =>
      refine ⟨⟨false, by simp⟩, ?_⟩
      simp
    | none =>
      cases hcopy : resp.copy with
      | error e =>
        refine ⟨⟨true, by simp⟩, ?_⟩
        simp
      | ok n =>
        refine ⟨⟨true, by simp⟩, ?_⟩
        simp

/-! ## The source resolver -/

theorem resolveSRPM_returns (env : Env) (source : GoString) :
    (resolveSRPM env source).1 ≠ none := by
  unfold resolveSRPM
  split
  · exact downloadSRPM_returns env source
  · split
    · simp
    · split
      · simp
      · split <;> simp

/-- C6: for a source that starts neither with `http://` nor with
`https://`, `resolveSRPM` returns, and it succeeds exactly when the
absolute form of the path exists and is not a directory; on success it
returns that absolute path and a nil cleanup action, on failure an error
with the empty path and a nil cleanup action; no step of the download is
taken. -/
theorem resolveSRPM_local (env : Env) (source : GoString)
    (h1 : HasPrefix source "http://".toList = false)
    (h2 : HasPrefix source "https://".toList = false) :
    (∃ r, (resolveSRPM env source).1 = some r ∧
      (r.err = none ↔
        ∃ p info, env.abs source = .ok p ∧ env.stat p = some info ∧ info.isDir = false) ∧
      (r.err = none → env.abs source = .ok r.path ∧ r.cleanup = none) ∧
      (r.err ≠ none → r.path = [] ∧ r.cleanup = none)) ∧
    (resolveSRPM env source).2.filter isDownloadEvent = [] := by
  unfold resolveSRPM
  simp only [h1, h2, Bool.or_self, Bool.false_eq_true, if_false]
  cases habs : env.abs source with
  | error e => simp [isDownloadEvent]
  | ok p =>
    cases hstat : env.stat p with
    | none => simp [isDownloadEvent, hstat]
    | some info =>
      cases hd : info.isDir
      · simp [isDownloadEvent, hstat, hd]
      · simp [isDownloadEvent, hstat, hd]

/-! ## The build -/

theorem execs_procEvents (env : Env) (name : GoString) (args : List GoString) :
    execs (procEvents env name args) =
      match env.proc name args with
      | .notStarted _ => []
      | _ => [(name, args)] := by
  unfold procEvents
  split <;> rfl

theorem commands_procEvents (env : Env) (name : GoString) (args : List GoString) :
    commands (procEvents env name args) = [(name, args)] := by
  unfold procEvents
  split <;> rfl

/-- C7, amended: `runBuild` hands exactly one command to `os/exec`,
`docker` with the argument vector `run --rm --user 0 -v
<srpmPath>:/input.src.rpm:ro -v <outputDir>:/out stream8-kernel-builder
/input.src.rpm /out`; when that command can be launched exactly one child
process is executed, with that name and vector, and when the launch fails
none is; `runBuild` returns nil exactly when the process was executed and
exited with status zero. -/
theorem runBuild_command (env : Env) (srpmPath outputDir : GoString) :
    commands (runBuild env srpmPath outputDir).2 =
        [("docker".toList,
          ["run".toList, "--rm".toList, "--user".toList, "0".toList,
            "-v".toList, srpmPath ++ ":/input.src.rpm:ro".toList,
            "-v".toList, outputDir ++ ":/out".toList,
            "stream8-kernel-builder".toList, "/input.src.rpm".toList, "/out".toList])] ∧
      execs (runBuild env srpmPath outputDir).2 =
        (match env.proc "docker".toList
            ["run".toList, "--rm".toList, "--user".toList, "0".toList,
              "-v".toList, srpmPath ++ ":/input.src.rpm:ro".toList,
              "-v".toList, outputDir ++ ":/out".toList,
              "stream8-kernel-builder".toList, "/input.src.rpm".toList, "/out".toList] with
          | .notStarted _ => []
          | _ =>
            [("docker".toList,
              ["run".toList, "--rm".toList, "--user".toList, "0".toList,
                "-v".toList, srpmPath ++ ":/input.src.rpm:ro".toList,
                "-v".toList, outputDir ++ ":/out".toList,
                "stream8-kernel-builder".toList, "/input.src.rpm".toList, "/out".toList])]) ∧
      ((runBuild env srpmPath outputDir).1 = none ↔
        ∃ out, env.proc "docker".toList
          ["run".toList, "--rm".toList, "--user".toList, "0".toList,
            "-v".toList, srpmPath ++ ":/input.src.rpm:ro".toList,
            "-v".toList, outputDir ++ ":/out".toList,
            "stream8-kernel-builder".toList, "/input.src.rpm".toList, "/out".toList] =
          .exited 0 out) := by
  have hc : ∀ tr : Trace,
      commands ([.call .runBuild, .stdout "[*] Starting Docker container for build...\n".toList,
        .stdout ("[*] Running: docker ".toList ++
          (Join ((buildArgs srpmPath outputDir).take 5) " ".toList ++ "...".toList) ++
          "\n".toList)] ++ tr) = commands tr := fun _ => rfl
  have he : ∀ tr : Trace,
      execs ([.call .runBuild, .stdout "[*] Starting Docker container for build...\n".toList,
        .stdout ("[*] Running: docker ".toList ++
          (Join ((buildArgs srpmPath outputDir).take 5) " ".toList ++ "...".toList) ++
          "\n".toList)] ++ tr) = execs tr := fun _ => rfl
  refine ⟨?_, ?_, ?_⟩
  · show commands (_ ++ procEvents env dockerCmd (buildArgs srpmPath outputDir)) = _
    rw [hc, commands_procEvents]
    rfl
  · show execs (_ ++ procEvents env dockerCmd (buildArgs srpmPath outputDir)) = _
    rw [he, execs_procEvents]
    rfl
  · show cmdRun env dockerCmd (buildArgs srpmPath outputDir) = none ↔ _
    unfold cmdRun
    change _ ↔ ∃ out, env.proc dockerCmd (buildArgs srpmPath outputDir) = .exited 0 out
    cases env.proc dockerCmd (buildArgs srpmPath outputDir) with
    | notStarted e => simp
    | failed e => simp
    | exited code out =>
      cases code with
      | zero => simp
      | succ k => simp

/-! ## The report -/

theorem packageLines_listLoop (files : List DirEntry) :
    packageLines (listLoop files) =
      files.filterMap (fun f =>
        if HasSuffix f.name ".rpm".toList then
          f.info.map (fun info => (f.name, mebibytes info.size))
        else none) := by
  induction files with
  | nil => rfl
  | cons f fs ih =>
    rw [listLoop, List.filterMap_cons]
    cases hs : HasSuffix f.name ".rpm".toList
    · simp only [Bool.false_eq_true, if_false]
      exact ih
    · simp only [if_true]
      cases hi : f.info with
      | none =>
        simp only [Option.map_none']
        exact ih
      | some info =>
        simp only [Option.map_some']
        rw [← ih]
        simp [packageLines]

theorem float64OfNat_exact (n : Nat) (h : n < 2 ^ 53) : float64OfNat n = n := by
  unfold float64OfNat
  rw [if_pos h]

/-- C8, amended: the package lines printed by `listOutputFiles` are, one
for one and in listing order, the entries of the listing whose name ends in
`.rpm` and whose metadata can be read, each with its own name and with the
size `float64(bytes) / 1048576`; that size is the byte count divided by
1048576 whenever the byte count is below 2^53. -/
theorem listOutputFiles_lines (env : Env) (dir : GoString) (files : List DirEntry)
    (hread : env.readDir dir = .ok files) :
    packageLines (listOutputFiles env dir) =
        files.filterMap (fun f =>
          if HasSuffix f.name ".rpm".toList then
            f.info.map (fun info => (f.name, (float64OfNat info.size : ℚ) / 1048576))
          else none) ∧
      ∀ bytes : Nat, bytes < 2 ^ 53 → mebibytes bytes = (bytes : ℚ) / 1048576 := by
  constructor
  · unfold listOutputFiles
    simp only [hread]
    have : packageLines ([.call .listOutputFiles, .stdout "\n[*] Built packages:\n".toList] ++
        listLoop files) = packageLines (listLoop files) := by
      simp [packageLines]
    rw [this, packageLines_listLoop]
    congr 1
    funext f
    simp only [mebibytes]
    norm_num
  · intro bytes hb
    rw [mebibytes, float64OfNat_exact bytes hb]
    norm_num

/-! ## The driver -/

theorem main_usage (env : Env) (args : List GoString)
    (h : ∀ prog source outputDir, args ≠ [prog, source, outputDir]) :
    main env args = (1, printUsage) := by
  unfold main
  split
  · rename_i prog source outputDir
    exact absurd rfl (h prog source outputDir)
  · rfl

theorem main_docker_error (env : Env) (prog source outputDir : GoString) (e : GoError)
    (h1 : (checkDocker env).1 = some e) :
    main env [prog, source, outputDir] =
      (1, (checkDocker env).2 ++ [.stderr ("[ERROR] ".toList ++ e ++ "\n".toList)]) := by
  simp only [main, h1]

theorem main_image_error (env : Env) (prog source outputDir : GoString) (e : GoError)
    (h1 : (checkDocker env).1 = none) (h2 : (checkDockerImage env).1 = some e) :
    main env [prog, source, outputDir] =
      (1, (checkDocker env).2 ++ (checkDockerImage env).2 ++
        [.stderr ("[ERROR] ".toList ++ e ++ "\n".toList)]) := by
  simp only [main, h1, h2]

theorem main_abs_error (env : Env) (prog source outputDir : GoString) (e : GoError)
    (h1 : (checkDocker env).1 = none) (h2 : (checkDockerImage env).1 = none)
    (h3 : env.abs outputDir = .error e) :
    main env [prog, source, outputDir] =
      (1, (checkDocker env).2 ++ (checkDockerImage env).2 ++
        [.stderr ("[ERROR] Invalid output path: ".toList ++ e ++ "\n".toList)]) := by
  simp only [main, h1, h2, h3]

theorem main_mkdir_error (env : Env) (prog source outputDir absOutput : GoString)
    (e : GoError) (h1 : (checkDocker env).1 = none) (h2 : (checkDockerImage env).1 = none)
    (h3 : env.abs outputDir = .ok absOutput) (h4 : env.mkdirAll absOutput = some e) :
    main env [prog, source, outputDir] =
      (1, (checkDocker env).2 ++ (checkDockerImage env).2 ++
        [.mkdirAll absOutput false,
          .stderr ("[ERROR] Cannot create output directory: ".toList ++ e ++ "\n".toList)]) := by
  simp only [main, h1, h2, h3, h4]

theorem main_resolve_panic (env : Env) (prog source outputDir absOutput : GoString)
    (h1 : (checkDocker env).1 = none) (h2 : (checkDockerImage env).1 = none)
    (h3 : env.abs outputDir = .ok absOutput) (h4 : env.mkdirAll absOutput = none)
    (h5 : (resolveSRPM env source).1 = none) :
    main env [prog, source, outputDir] =
      (2, (checkDocker env).2 ++ (checkDockerImage env).2 ++ [.mkdirAll absOutput true] ++
        (resolveSRPM env source).2) := by
  simp only [main, h1, h2, h3, h4, h5]

theorem main_resolve_error (env : Env) (prog source outputDir absOutput srpmPath : GoString)
    (cleanup : Option Cleanup) (e : GoError)
    (h1 : (checkDocker env).1 = none) (h2 : (checkDockerImage env).1 = none)
    (h3 : env.abs outputDir = .ok absOutput) (h4 : env.mkdirAll absOutput = none)
    (h5 : (resolveSRPM env source).1 = some ⟨srpmPath, cleanup, some e⟩) :
    main env [prog, source, outputDir] =
      (1, (checkDocker env).2 ++ (checkDockerImage env).2 ++ [.mkdirAll absOutput true] ++
        (resolveSRPM env source).2 ++ [.stderr ("[ERROR] ".toList ++ e ++ "\n".toList)]) := by
  simp only [main, h1, h2, h3, h4, h5]

theorem main_build_error (env : Env) (prog source outputDir absOutput srpmPath : GoString)
    (cleanup : Option Cleanup) (e : GoError)
    (h1 : (checkDocker env).1 = none) (h2 : (checkDockerImage env).1 = none)
    (h3 : env.abs outputDir = .ok absOutput) (h4 : env.mkdirAll absOutput = none)
    (h5 : (resolveSRPM env source).1 = some ⟨srpmPath, cleanup, none⟩)
    (h6 : (runBuild env srpmPath absOutput).1 = some e) :
    main env [prog, source, outputDir] =
      (1, (checkDocker env).2 ++ (checkDockerImage env).2 ++ [.mkdirAll absOutput true] ++
        (resolveSRPM env source).2 ++ [.stdoutTimed 0] ++ (runBuild env srpmPath absOutput).2 ++
        [.stderr ("[ERROR] Build failed: ".toList ++ e ++ "\n".toList)]) := by
  simp only [main, h1, h2, h3, h4, h5, h6]

theorem main_done (env : Env) (prog source outputDir absOutput srpmPath : GoString)
    (cleanup : Option Cleanup)
    (h1 : (checkDocker env).1 = none) (h2 : (checkDockerImage env).1 = none)
    (h3 : env.abs outputDir = .ok absOutput) (h4 : env.mkdirAll absOutput = none)
    (h5 : (resolveSRPM env source).1 = some ⟨srpmPath, cleanup, none⟩)
    (h6 : (runBuild env srpmPath absOutput).1 = none) :
    main env [prog, source, outputDir] =
      (0, (checkDocker env).2 ++ (checkDockerImage env).2 ++ [.mkdirAll absOutput true] ++
        (resolveSRPM env source).2 ++ [.stdoutTimed 0] ++ (runBuild env srpmPath absOutput).2 ++
        [.stdoutTimed 1, .stdout ("[*] Output directory: ".toList ++ absOutput ++ "\n".toList)] ++
        listOutputFiles env absOutput ++
        (match cleanup with
          | some cleanup => cleanup.run
          | none => [])) := by
  simp only [main, h1, h2, h3, h4, h5, h6]

theorem run_cases (env : Env) (source outputDir : GoString) :
    (∃ e, (checkDocker env).1 = some e) ∨
    ((checkDocker env).1 = none ∧ ∃ e, (checkDockerImage env).1 = some e) ∨
    ((checkDocker env).1 = none ∧ (checkDockerImage env).1 = none ∧
      ∃ e, env.abs outputDir = .error e) ∨
    ((checkDocker env).1 = none ∧ (checkDockerImage env).1 = none ∧
      ∃ absOutput, env.abs outputDir = .ok absOutput ∧
        ((∃ e, env.mkdirAll absOutput = some e) ∨
         (env.mkdirAll absOutput = none ∧
            ∃ srpmPath cleanup,
              (∃ e, (resolveSRPM env source).1 = some ⟨srpmPath, cleanup, some e⟩) ∨
              ((resolveSRPM env source).1 = some ⟨srpmPath, cleanup, none⟩ ∧
                ((∃ e, (runBuild env srpmPath absOutput).1 = some e) ∨
                  (runBuild env srpmPath absOutput).1 = none))))) := by
  cases h1 : (checkDocker env).1 with
  | some e => exact Or.inl ⟨e, rfl⟩
  | none =>
    right
    cases h2 : (checkDockerImage env).1 with
    | some e => exact Or.inl ⟨rfl, e, rfl⟩
    | none =>
      right
      cases h3 : env.abs outputDir with
      | error e => exact Or.inl ⟨rfl, rfl, e, rfl⟩
      | ok absOutput =>
        right
        refine ⟨rfl, rfl, absOutput, rfl, ?_⟩
        cases h4 : env.mkdirAll absOutput with
        | some e => exact Or.inl ⟨e, rfl⟩
        | none =>
          right
          refine ⟨rfl, ?_⟩
          cases h5 : (resolveSRPM env source).1 with
          | none => exact absurd h5 (resolveSRPM_returns env source)
          | some r =>
            obtain ⟨srpmPath, cleanup, err⟩ := r
            refine ⟨srpmPath, cleanup, ?_⟩
            cases err with
            | some e => exact Or.inl ⟨e, rfl⟩
            | none =>
              right
              refine ⟨rfl, ?_⟩
              cases h6 : (runBuild env srpmPath absOutput).1 with
              | some e => exact Or.inl ⟨e, rfl⟩
              | none => exact Or.inr rfl

theorem args_cases (args : List GoString) :
    (∃ prog source outputDir, args = [prog, source, outputDir]) ∨
      (∀ prog source outputDir, args ≠ [prog, source, outputDir]) := by
  by_cases h : ∃ prog source outputDir, args = [prog, source, outputDir]
  · exact Or.inl h
  · right
    intro p s o e
    exact h ⟨p, s, o, e⟩

/-! ## Stages: lemmas -/

theorem stages_append (a b : Trace) : stages (a ++ b) = stages a ++ stages b := by
  simp [stages, List.filterMap_append]

theorem stages_printUsage : stages printUsage = [] := by
  decide

theorem stages_procEvents (env : Env) (name : GoString) (args : List GoString) :
    stages (procEvents env name args) = [] := by
  unfold procEvents
  split <;> rfl

theorem stages_checkDocker (env : Env) : stages (checkDocker env).2 = [.checkDocker] := by
  unfold checkDocker
  dsimp only
  split
  · rw [stages_append, stages_procEvents]
    rfl
  · rw [stages_append, stages_append, stages_procEvents]
    rfl

theorem stages_checkDockerImage (env : Env) :
    stages (checkDockerImage env).2 = [.checkDockerImage] := by
  unfold checkDockerImage
  dsimp only
  split
  · rw [stages_append, stages_procEvents]
    rfl
  · split
    · rw [stages_append, stages_procEvents]
      rfl
    · rw [stages_append, stages_append, stages_procEvents]
      rfl

theorem stages_downloadSRPM (env : Env) (url : GoString) :
    stages (downloadSRPM env url).2 = [] := by
  unfold downloadSRPM
  rw [destFilename_eq]
  dsimp only
  split
  · simp [stages, stageOf, stageOrder]
  · split
    · simp [stages, stageOf, stageOrder, Cleanup.run]
    · split
      · simp [stages, stageOf, stageOrder, Cleanup.run]
      · split
        · simp [stages, stageOf, stageOrder, Cleanup.run]
        · split <;> simp [stages, stageOf, stageOrder, Cleanup.run]

theorem stages_resolveSRPM (env : Env) (source : GoString) :
    stages (resolveSRPM env source).2 = [.resolveSRPM] := by
  unfold resolveSRPM
  split
  · have h := stages_downloadSRPM env source
    simp only [stages] at h ⊢
    rw [List.filterMap_cons]
    simp [stageOf, stageOrder, h]
  · split
    · simp [stages, stageOf, stageOrder]
    · split
      · simp [stages, stageOf, stageOrder]
      · split <;> simp [stages, stageOf, stageOrder]

theorem stages_runBuild (env : Env) (srpmPath outputDir : GoString) :
    stages (runBuild env srpmPath outputDir).2 = [.runBuild] := by
  unfold runBuild
  dsimp only
  rw [stages_append, stages_procEvents]
  rfl

theorem stages_listLoop (files : List DirEntry) : stages (listLoop files) = [] := by
  induction files with
  | nil => rfl
  | cons f fs ih =>
    rw [listLoop]
    split
    · split
      · exact ih
      · simp only [stages] at ih ⊢
        rw [List.filterMap_cons]
        simp [stageOf, ih]
    · exact ih

theorem stages_listOutputFiles (env : Env) (dir : GoString) :
    stages (listOutputFiles env dir) = [.listOutputFiles] := by
  unfold listOutputFiles
  dsimp only
  split
  · simp [stages, stageOf, stageOrder]
  · rw [stages_append, stages_listLoop]
    simp [stages, stageOf, stageOrder]

theorem stages_cleanup (cleanup : Option Cleanup) :
    stages (match cleanup with
      | some cleanup => cleanup.run
      | none => []) = [] := by
  cases cleanup <;> simp [stages, stageOf, Cleanup.run]

theorem stages_nil : stages [] = [] := rfl

theorem stages_cons_stderr (t : GoString) (tr : Trace) :
    stages (.stderr t :: tr) = stages tr := rfl

theorem stages_cons_stdout (t : GoString) (tr : Trace) :
    stages (.stdout t :: tr) = stages tr := rfl

theorem stages_cons_stdoutTimed (n : Nat) (tr : Trace) :
    stages (.stdoutTimed n :: tr) = stages tr := rfl

theorem stages_cons_mkdirAll (q : GoString) (ok : Bool) (tr : Trace) :
    stages (.mkdirAll q ok :: tr) = stages tr := rfl

/-! ## The driver: exit code and stage order -/

theorem main_exit_zero_iff (env : Env) (args : List GoString) :
    (main env args).1 = 0 ↔
      ∃ prog source outputDir absOutput srpmPath cleanup,
        args = [prog, source, outputDir] ∧
        (checkDocker env).1 = none ∧
        (checkDockerImage env).1 = none ∧
        env.abs outputDir = .ok absOutput ∧
        env.mkdirAll absOutput = none ∧
        (resolveSRPM env source).1 = some ⟨srpmPath, cleanup, none⟩ ∧
        (runBuild env srpmPath absOutput).1 = none := by
  rcases args_cases args with ⟨prog, source, outputDir, rfl⟩ | hne
  · rcases run_cases env source outputDir with
      ⟨e, h1⟩ | ⟨h1, e, h2⟩ | ⟨h1, h2, e, h3⟩ |
      ⟨h1, h2, absOutput, h3, ⟨e, h4⟩ | ⟨h4, srpmPath, cleanup, ⟨e, h5⟩ | ⟨h5, ⟨e, h6⟩ | h6⟩⟩⟩
    · rw [main_docker_error env prog source outputDir e h1]
      simp [h1]
    · rw [main_image_error env prog source outputDir e h1 h2]
      simp [h2]
    · rw [main_abs_error env prog source outputDir e h1 h2 h3]
      simp [h3]
    · rw [main_mkdir_error env prog source outputDir absOutput e h1 h2 h3 h4]
      simp [h3, h4]
    · rw [main_resolve_error env prog source outputDir absOutput srpmPath cleanup e h1 h2 h3 h4 h5]
      simp [h5]
    · rw [main_build_error env prog source outputDir absOutput srpmPath cleanup e h1 h2 h3 h4 h5
        h6]
      simp [h3, h5, h6]
    · rw [main_done env prog source outputDir absOutput srpmPath cleanup h1 h2 h3 h4 h5 h6]
      simp only [true_iff]
      exact ⟨prog, source, outputDir, absOutput, srpmPath, cleanup, rfl, h1, h2, h3, h4, h5, h6⟩
  · rw [main_usage env args hne]
    constructor
    · intro h
      exact absurd h (by decide)
    · rintro ⟨prog, source, outputDir, _, _, _, h, _⟩
      exact absurd h (hne prog source outputDir)

theorem main_exit_zero_or_one (env : Env) (args : List GoString) :
    (main env args).1 = 0 ∨ (main env args).1 = 1 := by
  rcases args_cases args with ⟨prog, source, outputDir, rfl⟩ | hne
  · rcases run_cases env source outputDir with
      ⟨e, h1⟩ | ⟨h1, e, h2⟩ | ⟨h1, h2, e, h3⟩ |
      ⟨h1, h2, absOutput, h3, ⟨e, h4⟩ | ⟨h4, srpmPath, cleanup, ⟨e, h5⟩ | ⟨h5, ⟨e, h6⟩ | h6⟩⟩⟩
    · rw [main_docker_error env prog source outputDir e h1]; exact Or.inr rfl
    · rw [main_image_error env prog source outputDir e h1 h2]; exact Or.inr rfl
    · rw [main_abs_error env prog source outputDir e h1 h2 h3]; exact Or.inr rfl
    · rw [main_mkdir_error env prog source outputDir absOutput e h1 h2 h3 h4]; exact Or.inr rfl
    · rw [main_resolve_error env prog source outputDir absOutput srpmPath cleanup e h1 h2 h3 h4 h5]
      exact Or.inr rfl
    · rw [main_build_error env prog source outputDir absOutput srpmPath cleanup e h1 h2 h3 h4 h5
        h6]
      exact Or.inr rfl
    · rw [main_done env prog source outputDir absOutput srpmPath cleanup h1 h2 h3 h4 h5 h6]
      exact Or.inl rfl
  · rw [main_usage env args hne]; exact Or.inr rfl

theorem main_exit_readDir (env : Env) (args : List GoString)
    (rd : GoString → Except GoError (List DirEntry)) :
    (main { env with readDir := rd } args).1 = (main env args).1 := by
  rcases args_cases args with ⟨prog, source, outputDir, rfl⟩ | hne
  · rcases run_cases env source outputDir with
      ⟨e, h1⟩ | ⟨h1, e, h2⟩ | ⟨h1, h2, e, h3⟩ |
      ⟨h1, h2, absOutput, h3, ⟨e, h4⟩ | ⟨h4, srpmPath, cleanup, ⟨e, h5⟩ | ⟨h5, ⟨e, h6⟩ | h6⟩⟩⟩
    · rw [main_docker_error env prog source outputDir e h1,
        main_docker_error { env with readDir := rd } prog source outputDir e h1]
    · rw [main_image_error env prog source outputDir e h1 h2,
        main_image_error { env with readDir := rd } prog source outputDir e h1 h2]
    · rw [main_abs_error env prog source outputDir e h1 h2 h3,
        main_abs_error { env with readDir := rd } prog source outputDir e h1 h2 h3]
    · rw [main_mkdir_error env prog source outputDir absOutput e h1 h2 h3 h4,
        main_mkdir_error { env with readDir := rd } prog source outputDir absOutput e h1 h2 h3 h4]
    · rw [main_resolve_error env prog source outputDir absOutput srpmPath cleanup e h1 h2 h3 h4 h5,
        main_resolve_error { env with readDir := rd } prog source outputDir absOutput srpmPath
          cleanup e h1 h2 h3 h4 h5]
    · rw [main_build_error env prog source outputDir absOutput srpmPath cleanup e h1 h2 h3 h4 h5
          h6,
        main_build_error { env with readDir := rd } prog source outputDir absOutput srpmPath
          cleanup e h1 h2 h3 h4 h5 h6]
    · rw [main_done env prog source outputDir absOutput srpmPath cleanup h1 h2 h3 h4 h5 h6,
        main_done { env with readDir := rd } prog source outputDir absOutput srpmPath cleanup
          h1 h2 h3 h4 h5 h6]
  · rw [main_usage env args hne, main_usage { env with readDir := rd } args hne]

/-- C4: the exit code of `main` is 0 exactly when `os.Args` holds two
arguments after the program name and the docker check, the image check, the
making of the output directory, the source resolution and the build all
succeed; otherwise it is 1; and it does not depend on what `os.ReadDir`
answers to `listOutputFiles`. -/
theorem main_exit_code (env : Env) (args : List GoString) :
    ((main env args).1 = 0 ↔
      ∃ prog source outputDir absOutput srpmPath cleanup,
        args = [prog, source, outputDir] ∧
        (checkDocker env).1 = none ∧
        (checkDockerImage env).1 = none ∧
        env.abs outputDir = .ok absOutput ∧
        env.mkdirAll absOutput = none ∧
        (resolveSRPM env source).1 = some ⟨srpmPath, cleanup, none⟩ ∧
        (runBuild env srpmPath absOutput).1 = none) ∧
    ((main env args).1 = 0 ∨ (main env args).1 = 1) ∧
    ∀ rd : GoString → Except GoError (List DirEntry),
      (main { env with readDir := rd } args).1 = (main env args).1 :=
  ⟨main_exit_zero_iff env args, main_exit_zero_or_one env args, main_exit_readDir env args⟩

theorem main_stages (env : Env) (prog source outputDir : GoString) :
    ((∃ e, (checkDocker env).1 = some e) ∧
      stages (main env [prog, source, outputDir]).2 = [.checkDocker]) ∨
    ((checkDocker env).1 = none ∧
      stages (main env [prog, source, outputDir]).2 = [.checkDocker, .checkDockerImage]) ∨
    ((checkDocker env).1 = none ∧ (checkDockerImage env).1 = none ∧
      stages (main env [prog, source, outputDir]).2 =
        [.checkDocker, .checkDockerImage, .resolveSRPM]) ∨
    ((checkDocker env).1 = none ∧ (checkDockerImage env).1 = none ∧
      (∃ srpmPath cleanup, (resolveSRPM env source).1 = some ⟨srpmPath, cleanup, none⟩) ∧
      stages (main env [prog, source, outputDir]).2 =
        [.checkDocker, .checkDockerImage, .resolveSRPM, .runBuild]) ∨
    ((checkDocker env).1 = none ∧ (checkDockerImage env).1 = none ∧
      (∃ absOutput srpmPath cleanup, env.abs outputDir = .ok absOutput ∧
        (resolveSRPM env source).1 = some ⟨srpmPath, cleanup, none⟩ ∧
        (runBuild env srpmPath absOutput).1 = none) ∧
      stages (main env [prog, source, outputDir]).2 = stageOrder) := by
  rcases run_cases env source outputDir with
    ⟨e, h1⟩ | ⟨h1, e, h2⟩ | ⟨h1, h2, e, h3⟩ |
    ⟨h1, h2, absOutput, h3, ⟨e, h4⟩ | ⟨h4, srpmPath, cleanup, ⟨e, h5⟩ | ⟨h5, ⟨e, h6⟩ | h6⟩⟩⟩
  · left
    refine ⟨⟨e, h1⟩, ?_⟩
    rw [main_docker_error env prog source outputDir e h1]
    simp only [stages_append, stages_nil, stages_cons_stderr, stages_cons_stdout,
      stages_cons_stdoutTimed, stages_cons_mkdirAll, stages_checkDocker]
    rfl
  · right; left
    refine ⟨h1, ?_⟩
    rw [main_image_error env prog source outputDir e h1 h2]
    simp only [stages_append, stages_nil, stages_cons_stderr, stages_cons_stdout,
      stages_cons_stdoutTimed, stages_cons_mkdirAll, stages_checkDocker, stages_checkDockerImage]
    rfl
  · right; left
    refine ⟨h1, ?_⟩
    rw [main_abs_error env prog source outputDir e h1 h2 h3]
    simp only [stages_append, stages_nil, stages_cons_stderr, stages_cons_stdout,
      stages_cons_stdoutTimed, stages_cons_mkdirAll, stages_checkDocker, stages_checkDockerImage]
    rfl
  · right; left
    refine ⟨h1, ?_⟩
    rw [main_mkdir_error env prog source outputDir absOutput e h1 h2 h3 h4]
    simp only [stages_append, stages_nil, stages_cons_stderr, stages_cons_stdout,
      stages_cons_stdoutTimed, stages_cons_mkdirAll, stages_checkDocker, stages_checkDockerImage]
    rfl
  · right; right; left
    refine ⟨h1, h2, ?_⟩
    rw [main_resolve_error env prog source outputDir absOutput srpmPath cleanup e h1 h2 h3 h4 h5]
    simp only [stages_append, stages_nil, stages_cons_stderr, stages_cons_stdout,
      stages_cons_stdoutTimed, stages_cons_mkdirAll, stages_checkDocker, stages_checkDockerImage, stages_resolveSRPM]
    rfl
  · right; right; right; left
    refine ⟨h1, h2, ⟨srpmPath, cleanup, h5⟩, ?_⟩
    rw [main_build_error env prog source outputDir absOutput srpmPath cleanup e h1 h2 h3 h4 h5 h6]
    simp only [stages_append, stages_nil, stages_cons_stderr, stages_cons_stdout,
      stages_cons_stdoutTimed, stages_cons_mkdirAll, stages_checkDocker, stages_checkDockerImage, stages_resolveSRPM,
      stages_runBuild]
    rfl
  · right; right; right; right
    refine ⟨h1, h2, ⟨absOutput, srpmPath, cleanup, h3, h5, h6⟩, ?_⟩
    rw [main_done env prog source outputDir absOutput srpmPath cleanup h1 h2 h3 h4 h5 h6]
    simp only [stages_append, stages_nil, stages_cons_stderr, stages_cons_stdout,
      stages_cons_stdoutTimed, stages_cons_mkdirAll, stages_checkDocker, stages_checkDockerImage, stages_resolveSRPM,
      stages_runBuild, stages_listOutputFiles, stages_cleanup]
    rfl

/-- C5: the stages `main` starts are an initial part of the sequence
checkDocker, checkDockerImage, resolveSRPM, runBuild, listOutputFiles, each
at most once and in that order; `checkDocker` is started only with two
arguments after the program name, `checkDockerImage` only when `checkDocker`
returned nil, `resolveSRPM` only when both checks returned nil, `runBuild` at
most once and only when moreover `resolveSRPM` returned no error, and
`listOutputFiles` only when `runBuild` returned nil. -/
theorem main_stage_order (env : Env) (args : List GoString) :
    stages (main env args).2 <+: stageOrder ∧
    (Fn.checkDocker ∈ stages (main env args).2 →
      ∃ prog source outputDir, args = [prog, source, outputDir]) ∧
    (Fn.checkDockerImage ∈ stages (main env args).2 → (checkDocker env).1 = none) ∧
    (Fn.resolveSRPM ∈ stages (main env args).2 →
      (checkDocker env).1 = none ∧ (checkDockerImage env).1 = none) ∧
    (stages (main env args).2).count Fn.runBuild ≤ 1 ∧
    (Fn.runBuild ∈ stages (main env args).2 →
      (checkDocker env).1 = none ∧ (checkDockerImage env).1 = none ∧
      ∃ prog source outputDir srpmPath cleanup, args = [prog, source, outputDir] ∧
        (resolveSRPM env source).1 = some ⟨srpmPath, cleanup, none⟩) ∧
    (Fn.listOutputFiles ∈ stages (main env args).2 →
      ∃ prog source outputDir absOutput srpmPath cleanup, args = [prog, source, outputDir] ∧
        env.abs outputDir = .ok absOutput ∧
        (resolveSRPM env source).1 = some ⟨srpmPath, cleanup, none⟩ ∧
        (runBuild env srpmPath absOutput).1 = none) := by
  rcases args_cases args with ⟨prog, source, outputDir, rfl⟩ | hne
  · rcases main_stages env prog source outputDir with
      ⟨_, hs⟩ | ⟨h1, hs⟩ | ⟨h1, h2, hs⟩ | ⟨h1, h2, ⟨srpmPath, cleanup, h5⟩, hs⟩ |
      ⟨h1, h2, ⟨absOutput, srpmPath, cleanup, h3, h5, h6⟩, hs⟩
    · rw [hs]
      refine ⟨by decide, fun _ => ⟨prog, source, outputDir, rfl⟩, ?_, ?_, by decide, ?_, ?_⟩ <;>
        intro h <;> exact absurd h (by decide)
    · rw [hs]
      refine ⟨by decide, fun _ => ⟨prog, source, outputDir, rfl⟩, fun _ => h1, ?_, by decide,
        ?_, ?_⟩ <;> intro h <;> exact absurd h (by decide)
    · rw [hs]
      refine ⟨by decide, fun _ => ⟨prog, source, outputDir, rfl⟩, fun _ => h1,
        fun _ => ⟨h1, h2⟩, by decide, ?_, ?_⟩ <;> intro h <;> exact absurd h (by decide)
    · rw [hs]
      refine ⟨by decide, fun _ => ⟨prog, source, outputDir, rfl⟩, fun _ => h1,
        fun _ => ⟨h1, h2⟩, by decide,
        fun _ => ⟨h1, h2, prog, source, outputDir, srpmPath, cleanup, rfl, h5⟩, ?_⟩
      intro h
      exact absurd h (by decide)
    · rw [hs]
      exact ⟨by decide, fun _ => ⟨prog, source, outputDir, rfl⟩, fun _ => h1,
        fun _ => ⟨h1, h2⟩, by decide,
        fun _ => ⟨h1, h2, prog, source, outputDir, srpmPath, cleanup, rfl, h5⟩,
        fun _ => ⟨prog, source, outputDir, absOutput, srpmPath, cleanup, rfl, h3, h5, h6⟩⟩
  · rw [main_usage env args hne]
    simp only [stages_printUsage]
    refine ⟨by decide, ?_, ?_, ?_, by decide, ?_, ?_⟩ <;> intro h <;> exact absurd h (by decide)

/-! ## The temporary directory at exit -/

theorem mem_fsAfter_of_mkdirTemp (tr : Trace) (fs : List GoString) (d : GoString)
    (hd : Event.mkdirTemp d ∈ tr) (hk : ∀ e ∈ tr, keepsFiles e = true) :
    d ∈ fsAfter fs tr := by
  induction tr generalizing fs with
  | nil => simp at hd
  | cons e es ih =>
    rw [mem_fsAfter_cons]
    have hk2 : ∀ x ∈ es, keepsFiles x = true := fun x hx => hk x (List.mem_cons_of_mem _ hx)
    rcases List.mem_cons.mp hd with h | h
    · rw [← h]
      exact mem_fsAfter_of_keeps es _ d hk2 (by simp [fsStep])
    · exact ih _ h hk2

theorem keepsFiles_procEvents (env : Env) (name : GoString) (args : List GoString) :
    ∀ e ∈ procEvents env name args, keepsFiles e = true := by
  unfold procEvents
  split <;> simp [keepsFiles]

theorem keepsFiles_append (a b : Trace) (ha : ∀ e ∈ a, keepsFiles e = true)
    (hb : ∀ e ∈ b, keepsFiles e = true) : ∀ e ∈ a ++ b, keepsFiles e = true := by
  intro e he
  rcases List.mem_append.mp he with h | h
  · exact ha e h
  · exact hb e h

theorem keepsFiles_checkDocker (env : Env) : ∀ e ∈ (checkDocker env).2, keepsFiles e = true := by
  unfold checkDocker
  dsimp only
  split
  · exact keepsFiles_append _ _ (by simp [keepsFiles]) (keepsFiles_procEvents env _ _)
  · exact keepsFiles_append _ _
      (keepsFiles_append _ _ (by simp [keepsFiles]) (keepsFiles_procEvents env _ _))
      (by simp [keepsFiles])

theorem keepsFiles_checkDockerImage (env : Env) :
    ∀ e ∈ (checkDockerImage env).2, keepsFiles e = true := by
  unfold checkDockerImage
  dsimp only
  split
  · exact keepsFiles_append _ _ (by simp [keepsFiles]) (keepsFiles_procEvents env _ _)
  · split
    · exact keepsFiles_append _ _ (by simp [keepsFiles]) (keepsFiles_procEvents env _ _)
    · exact keepsFiles_append _ _
        (keepsFiles_append _ _ (by simp [keepsFiles]) (keepsFiles_procEvents env _ _))
        (by simp [keepsFiles])

theorem keepsFiles_runBuild (env : Env) (srpmPath outputDir : GoString) :
    ∀ e ∈ (runBuild env srpmPath outputDir).2, keepsFiles e = true := by
  unfold runBuild
  dsimp only
  exact keepsFiles_append _ _ (by simp [keepsFiles]) (keepsFiles_procEvents env _ _)

theorem downloadSRPM_success_trace (env : Env) (url srpmPath : GoString) (c : Cleanup)
    (h : (downloadSRPM env url).1 = some ⟨srpmPath, some c, none⟩) :
    Event.mkdirTemp c.tmpDir ∈ (downloadSRPM env url).2 ∧
      ∀ e ∈ (downloadSRPM env url).2, keepsFiles e = true := by
  unfold downloadSRPM at h ⊢
  rw [destFilename_eq] at h ⊢
  cases hdir : env.mkdirTemp with
  | error e =>
    simp only [hdir] at h
    simp at h
  | ok tmpDir =>
    cases hget : env.httpGet url with
    | error e =>
      simp only [hdir, hget] at h
      simp at h
    | ok resp =>
      by_cases hs : resp.statusCode = 200
      · cases hc : env.create (filepathJoin tmpDir
            (if HasSuffix url ".src.rpm".toList then finalSegment url
              else "kernel.src.rpm".toList)) with
        | some e =>
          simp only [hdir, hget, hs, ne_eq, not_true_eq_false, if_false, hc] at h
          simp at h
        | none =>
          cases hcopy : resp.copy with
          | error e =>
            simp only [hdir, hget, hs, ne_eq, not_true_eq_false, if_false, hc, hcopy] at h
            simp at h
          | ok size =>
            simp only [hdir, hget, hs, ne_eq, not_true_eq_false, if_false, hc, hcopy] at h ⊢
            simp only [Option.some.injEq, Resolved.mk.injEq, and_true] at h
            rw [← h.2]
            simp [keepsFiles]
      · simp only [hdir, hget, ne_eq, hs, not_false_eq_true, if_true] at h
        simp at h

theorem resolveSRPM_success_trace (env : Env) (source srpmPath : GoString) (c : Cleanup)
    (h : (resolveSRPM env source).1 = some ⟨srpmPath, some c, none⟩) :
    Event.mkdirTemp c.tmpDir ∈ (resolveSRPM env source).2 ∧
      ∀ e ∈ (resolveSRPM env source).2, keepsFiles e = true := by
  unfold resolveSRPM at h ⊢
  split at h
  · rename_i hurl
    rw [if_pos hurl]
    have := downloadSRPM_success_trace env source srpmPath c h
    refine ⟨List.mem_cons_of_mem _ this.1, ?_⟩
    intro e he
    rcases List.mem_cons.mp he with h0 | h0
    · rw [h0]; rfl
    · exact this.2 e h0
  · split at h
    · simp at h
    · split at h
      · simp at h
      · split at h <;> simp at h

theorem main_build_error_keeps_tmpDir (env : Env)
    (prog source outputDir absOutput srpmPath : GoString) (c : Cleanup) (e : GoError)
    (fs : List GoString)
    (h1 : (checkDocker env).1 = none) (h2 : (checkDockerImage env).1 = none)
    (h3 : env.abs outputDir = .ok absOutput) (h4 : env.mkdirAll absOutput = none)
    (h5 : (resolveSRPM env source).1 = some ⟨srpmPath, some c, none⟩)
    (h6 : (runBuild env srpmPath absOutput).1 = some e) :
    (main env [prog, source, outputDir]).1 = 1 ∧
      c.tmpDir ∈ fsAfter fs (main env [prog, source, outputDir]).2 := by
  rw [main_build_error env prog source outputDir absOutput srpmPath (some c) e h1 h2 h3 h4 h5 h6]
  refine ⟨rfl, ?_⟩
  have hr := resolveSRPM_success_trace env source srpmPath c h5
  apply mem_fsAfter_of_mkdirTemp
  · simp only [List.mem_append]
    exact Or.inl (Or.inl (Or.inl (Or.inr hr.1)))
  · intro x hx
    simp only [List.mem_append, List.mem_singleton] at hx
    rcases hx with (((((hx | hx) | hx) | hx) | hx) | hx) | hx
    · exact keepsFiles_checkDocker env x hx
    · exact keepsFiles_checkDockerImage env x hx
    · rw [hx]; rfl
    · exact hr.2 x hx
    · rw [hx]; rfl
    · exact keepsFiles_runBuild env srpmPath absOutput x hx
    · rw [hx]; rfl

theorem main_done_removes_tmpDir (env : Env)
    (prog source outputDir absOutput srpmPath : GoString) (c : Cleanup) (fs : List GoString)
    (h1 : (checkDocker env).1 = none) (h2 : (checkDockerImage env).1 = none)
    (h3 : env.abs outputDir = .ok absOutput) (h4 : env.mkdirAll absOutput = none)
    (h5 : (resolveSRPM env source).1 = some ⟨srpmPath, some c, none⟩)
    (h6 : (runBuild env srpmPath absOutput).1 = none) :
    (main env [prog, source, outputDir]).1 = 0 ∧
      c.tmpDir ∉ fsAfter fs (main env [prog, source, outputDir]).2 := by
  rw [main_done env prog source outputDir absOutput srpmPath (some c) h1 h2 h3 h4 h5 h6]
  exact ⟨rfl, not_mem_fsAfter_removeAll _ _ _⟩

/-! ## The destination filename -/

/-- C3: the destination filename derived in `downloadSRPM` is the final
path segment of the URL (the substring after its last `/`) when the URL ends
in `.src.rpm`, and the fallback name `kernel.src.rpm` when it does not. -/
theorem destFilename_final_segment_or_fallback (url : GoString) :
    (HasSuffix url ".src.rpm".toList = true → destFilename url = some (finalSegment url)) ∧
    (HasSuffix url ".src.rpm".toList = false →
      destFilename url = some "kernel.src.rpm".toList) ∧
    '/' ∉ finalSegment url ∧
    (url = finalSegment url ∨ ∃ pre, url = pre ++ '/' :: finalSegment url) := by
  refine ⟨?_, ?_, finalSegment_not_mem url, finalSegment_decomp url⟩
  · intro h
    rw [destFilename_eq, if_pos h]
  · intro h
    rw [destFilename_eq, h]
    rfl

/-- C10: for every URL the indexing `parts[len(parts)-1]` is in range, and
the destination filename derived in `downloadSRPM` is not empty, ends in
`.src.rpm` and holds no `/`; hence for every directory `tmpDir` the
destination path `filepath.Join(tmpDir, filename)` is made of the elements
of the cleaned `tmpDir` followed by the one element `filename`. -/
theorem destFilename_safe (url : GoString) :
    (Split url '/').length - 1 < (Split url '/').length ∧
    ∃ f, destFilename url = some f ∧ f ≠ [] ∧ HasSuffix f ".src.rpm".toList = true ∧
      '/' ∉ f ∧
      ∀ tmpDir, filepathJoin tmpDir f =
        pathOf (HasPrefix tmpDir ['/']) (cleanElems tmpDir ++ [f]) := by
  constructor
  · have := List.length_pos.mpr (split_ne_nil url '/')
    omega
  · refine ⟨_, destFilename_eq url, ?_⟩
    have key : HasSuffix (if HasSuffix url ".src.rpm".toList then finalSegment url
          else "kernel.src.rpm".toList) ".src.rpm".toList = true ∧
        '/' ∉ (if HasSuffix url ".src.rpm".toList then finalSegment url
          else "kernel.src.rpm".toList) := by
      cases h : HasSuffix url ".src.rpm".toList
      · simp only [Bool.false_eq_true, if_false]
        exact ⟨by decide, by decide⟩
      · simp only [if_true]
        exact ⟨by rw [hasSuffix_finalSegment url _ (by decide), h], finalSegment_not_mem url⟩
    have hlen := hasSuffix_length_le _ _ key.1
    have h8 : (".src.rpm".toList : GoString).length = 8 := by decide
    rw [h8] at hlen
    refine ⟨hasSuffix_ne_nil_of _ _ key.1 (by decide), key.1, key.2, ?_⟩
    intro tmpDir
    exact filepathJoin_child tmpDir _ key.2 (by omega)

/-! ## Runs on the sample environments -/

/-- C1: a run on a URL in which the download succeeds (temporary directory
`/tmp/kernel-build-1`, cleanup action returned) and the build container
exits with status 1: `main` exits with code 1 and the temporary directory
still exists at exit, the deferred cleanup being skipped by `os.Exit`; on
the same run with a successful build the exit code is 0 and the directory
is gone. -/
theorem main_build_failure_leaves_tmpDir :
    (resolveSRPM buildFailsEnv sampleUrl).1 =
        some ⟨"/tmp/kernel-build-1/kernel-4.18.0.src.rpm".toList,
          some ⟨"/tmp/kernel-build-1".toList⟩, none⟩ ∧
      (main buildFailsEnv urlArgs).1 = 1 ∧
      "/tmp/kernel-build-1".toList ∈ fsAfter [] (main buildFailsEnv urlArgs).2 ∧
      (main okEnv urlArgs).1 = 0 ∧
      "/tmp/kernel-build-1".toList ∉ fsAfter [] (main okEnv urlArgs).2 :=
  ⟨by decide,
    (main_build_error_keeps_tmpDir buildFailsEnv _ sampleUrl "out".toList "/work/out".toList
      "/tmp/kernel-build-1/kernel-4.18.0.src.rpm".toList ⟨"/tmp/kernel-build-1".toList⟩
      "exit status 1".toList [] (by decide) (by decide) rfl rfl (by decide) (by decide)).1,
    (main_build_error_keeps_tmpDir buildFailsEnv _ sampleUrl "out".toList "/work/out".toList
      "/tmp/kernel-build-1/kernel-4.18.0.src.rpm".toList ⟨"/tmp/kernel-build-1".toList⟩
      "exit status 1".toList [] (by decide) (by decide) rfl rfl (by decide) (by decide)).2,
    (main_done_removes_tmpDir okEnv _ sampleUrl "out".toList "/work/out".toList
      "/tmp/kernel-build-1/kernel-4.18.0.src.rpm".toList ⟨"/tmp/kernel-build-1".toList⟩
      [] (by decide) (by decide) rfl rfl (by decide) (by decide)).1,
    (main_done_removes_tmpDir okEnv _ sampleUrl "out".toList "/work/out".toList
      "/tmp/kernel-build-1/kernel-4.18.0.src.rpm".toList ⟨"/tmp/kernel-build-1".toList⟩
      [] (by decide) (by decide) rfl rfl (by decide) (by decide)).2⟩

/-- Witness of C2 on a server answering 404. -/
theorem downloadSRPM_failure_removes_tmpDir_witness :
    (∃ err, (downloadSRPM (statusEnv 404) sampleUrl).1 = some ⟨[], none, some err⟩) ∧
      Event.mkdirTemp "/tmp/kernel-build-1".toList ∈ (downloadSRPM (statusEnv 404) sampleUrl).2 ∧
      "/tmp/kernel-build-1".toList ∉
        fsAfter ["/tmp/kernel-build-1".toList] (downloadSRPM (statusEnv 404) sampleUrl).2 :=
  downloadSRPM_failure_removes_tmpDir (statusEnv 404) sampleUrl "/tmp/kernel-build-1".toList
    ["/tmp/kernel-build-1".toList] rfl (by decide)

/-- Witness of C9, amended, on a server answering 404. -/
theorem downloadSRPM_status_check_witness :
    (downloadSRPM (statusEnv 404) sampleUrl).1 =
        some ⟨[], none, some "download failed: HTTP 404".toList⟩ ∧
      (downloadSRPM (statusEnv 404) sampleUrl).2.filter isCreateEvent = [] ∧
      "/tmp/kernel-build-1".toList ∉ fsAfter [] (downloadSRPM (statusEnv 404) sampleUrl).2 :=
  (downloadSRPM_status_check (statusEnv 404) sampleUrl "/tmp/kernel-build-1".toList
    ⟨404, .ok 0⟩ [] rfl rfl).1 (by decide)

/-- Counterexample to C9 as stated: 204 is a status code of the success
class, and a response carrying it is turned down for its status. -/
theorem downloadSRPM_rejects_204 :
    isSuccessStatus 204 = true ∧
      (statusEnv 204).httpGet sampleUrl = .ok ⟨204, .ok 0⟩ ∧
      (downloadSRPM (statusEnv 204) sampleUrl).1 =
        some ⟨[], none, some "download failed: HTTP 204".toList⟩ :=
  ⟨by decide, rfl, by decide⟩

/-- Witness of C6 on a local file and on a directory. -/
theorem resolveSRPM_local_witness :
    ((∃ r, (resolveSRPM okEnv "kernel.src.rpm".toList).1 = some r ∧
      (r.err = none ↔
        ∃ p info, okEnv.abs "kernel.src.rpm".toList = .ok p ∧ okEnv.stat p = some info ∧
          info.isDir = false) ∧
      (r.err = none → okEnv.abs "kernel.src.rpm".toList = .ok r.path ∧ r.cleanup = none) ∧
      (r.err ≠ none → r.path = [] ∧ r.cleanup = none)) ∧
    (resolveSRPM okEnv "kernel.src.rpm".toList).2.filter isDownloadEvent = []) ∧
    (resolveSRPM okEnv "kernel.src.rpm".toList).1 =
      some ⟨"/work/kernel.src.rpm".toList, none, none⟩ ∧
    (resolveSRPM okEnv "/work".toList).1 =
      some ⟨[], none, some "path is a directory, not a file: /work".toList⟩ :=
  ⟨resolveSRPM_local okEnv "kernel.src.rpm".toList (by decide) (by decide), by decide,
    by decide⟩

/-- Witness of C8, amended, on the listing of `okEnv`. -/
theorem listOutputFiles_lines_witness :
    packageLines (listOutputFiles okEnv "/work/out".toList) =
      [("kernel-4.18.0.x86_64.rpm".toList, (float64OfNat 3145728 : ℚ) / 1048576),
        ("kernel-core.rpm".toList, (float64OfNat 524288 : ℚ) / 1048576)] ∧
    mebibytes 3145728 = (3145728 : ℚ) / 1048576 :=
  ⟨(listOutputFiles_lines okEnv "/work/out".toList _ rfl).1,
    (listOutputFiles_lines okEnv "/work/out".toList _ rfl).2 3145728 (by norm_num)⟩

theorem float64OfNat_huge : float64OfNat 9007199254756721 = 9007199254756720 := by
  have h : Nat.log2 9007199254756721 = 53 := by
    have h1 : Nat.log2 9007199254756721 < 54 := (Nat.log2_lt (by norm_num)).2 (by norm_num)
    have h2 : ¬ Nat.log2 9007199254756721 < 53 := fun h => by
      have := (Nat.log2_lt (by norm_num)).1 h
      norm_num at this
    omega
  simp [float64OfNat, h]

/-- Counterexample to C8 as stated: a package of 2^53 + 15729 =
9007199254756721 bytes is listed with the size 9007199254756720 / 1048576
(8589934592.0149993896484375, printed with two decimals as 8589934592.01),
which is not its byte count divided by 1048576 (8589934592.0150003..., which
two decimals render as 8589934592.02). -/
theorem listOutputFiles_huge_size :
    hugeEnv.readDir [] = .ok [⟨"huge.rpm".toList, some ⟨false, 9007199254756721⟩⟩] ∧
      packageLines (listOutputFiles hugeEnv []) =
        [("huge.rpm".toList, (9007199254756720 : ℚ) / 1048576)] ∧
      (9007199254756720 : ℚ) / 1048576 ≠ (9007199254756721 : ℚ) / 1048576 := by
  refine ⟨rfl, ?_, by norm_num⟩
  have h : packageLines (listOutputFiles hugeEnv []) =
      [("huge.rpm".toList, mebibytes 9007199254756721)] := rfl
  rw [h, mebibytes, float64OfNat_huge]
  norm_num

/-- Counterexample to C7 as stated: when the launch of the container fails,
`runBuild` executes no docker command and returns the launch error. -/
theorem runBuild_launch_failure :
    launchFailsEnv.proc "docker".toList
        ["run".toList, "--rm".toList, "--user".toList, "0".toList,
          "-v".toList, "/work/kernel.src.rpm:/input.src.rpm:ro".toList,
          "-v".toList, "/work/out:/out".toList,
          "stream8-kernel-builder".toList, "/input.src.rpm".toList, "/out".toList] =
        .notStarted "fork/exec /usr/bin/docker: resource temporarily unavailable".toList ∧
      execs (runBuild launchFailsEnv "/work/kernel.src.rpm".toList "/work/out".toList).2 = [] ∧
      (runBuild launchFailsEnv "/work/kernel.src.rpm".toList "/work/out".toList).1 =
        some "fork/exec /usr/bin/docker: resource temporarily unavailable".toList := by
  decide

end Task2
